import Mathlib

/-!
Verification of the fluxwave audio player core against its specification.

The development shallowly embeds the JavaScript sources:
 * `src/fluxwave/audio/HowlerPlayer.js` (both observed variants): the player
   wrapper — URL validation, load, transport operations, getters, destroy,
   and (second variant) the static periodic-cleanup / global-cleanup logic;
 * `src/fluxwave/store/playerStore.js`: the zustand store — volume/rate
   setters, shuffle toggling, track advancing;
 * `src/fluxwave/components/AudioPlayer.js`: the component-level handlers
   `handleSeek`, `handlePlay`, `handleTrackEnd`.

JavaScript numbers are modelled by `JSNum`: an exact rational together with
the special values `NaN`, `Infinity` and `-Infinity`.  `Math.min`/`Math.max`
are modelled by `jsMin`/`jsMax` with the JS rule that NaN propagates.
JavaScript values reaching the URL validator are modelled by `JSVal`.

The underlying Howler engine (a third-party library, not part of this
repository) is modelled at its observable boundary: a `Sound` is the state
the wrapper can reach through the `Howl` handle, and the engine-side pool of
live (not yet unloaded) `Howl` instances is a set of generation numbers.
Event delivery follows Howler's documented behaviour that an unloaded `Howl`
has its listeners removed and fires no further callbacks.
-/

namespace Fluxwave

/-- A JavaScript number: an exact rational or one of the special values. -/
inductive JSNum where
  | nan
  | inf
  | ninf
  | fin (x : ℚ)
deriving DecidableEq, Repr

/-- JS `isNaN` (on numbers; no coercion needed). -/
def JSNum.isNaN : JSNum → Bool
  | .nan => true
  | _ => false

/-- JS `isFinite` (on numbers). -/
def JSNum.isFinite : JSNum → Bool
  | .fin _ => true
  | _ => false

/-- JS `Math.min` on two numbers: NaN propagates, infinities compare as usual. -/
def jsMin : JSNum → JSNum → JSNum
  | .nan, _ => .nan
  | _, .nan => .nan
  | .ninf, _ => .ninf
  | _, .ninf => .ninf
  | .inf, b => b
  | a, .inf => a
  | .fin x, .fin y => .fin (min x y)

/-- JS `Math.max` on two numbers: NaN propagates, infinities compare as usual. -/
def jsMax : JSNum → JSNum → JSNum
  | .nan, _ => .nan
  | _, .nan => .nan
  | .inf, _ => .inf
  | _, .inf => .inf
  | .ninf, b => b
  | a, .ninf => a
  | .fin x, .fin y => .fin (max x y)

/-- A JavaScript value as it can reach `isValidUrl` (the `url` argument). -/
inductive JSVal where
  | jsNull
  | jsUndefined
  | jsBool (b : Bool)
  | jsNumV (n : JSNum)
  | jsStr (s : String)
deriving DecidableEq, Repr

/-- Characters allowed in a URL scheme after the first (RFC 3986 / WHATWG). -/
def isSchemeChar (c : Char) : Bool :=
  c.isAlphanum || c == '+' || c == '-' || c == '.'

/-- Split a character list at the first ':' provided everything before it is
made of scheme characters; returns the candidate scheme and the remainder. -/
def takeScheme : List Char → Option (List Char × List Char)
  | [] => none
  | c :: cs =>
    if c == ':' then some ([], cs)
    else if isSchemeChar c then
      match takeScheme cs with
      | some (sch, rest) => some (c :: sch, rest)
      | none => none
    else none

/-- The WHATWG "special" schemes, which require a non-empty host. -/
def specialProtocols : List String := ["http:", "https:", "ws:", "wss:", "ftp:", "file:"]

/-- Drop the leading slashes (and backslashes) preceding an authority. -/
def stripSlashes : List Char → List Char
  | c :: cs => if c == '/' || c == '\\' then stripSlashes cs else c :: cs
  | [] => []

/-- The host portion: characters up to the first path/query/fragment delimiter. -/
def hostPart (cs : List Char) : List Char :=
  cs.takeWhile (fun c => !(c == '/' || c == '?' || c == '#' || c == '\\'))

/-- Model of `new URL(s, base).protocol` where `base` is the document origin
and `bp` its protocol (`"http:"` or `"https:"`).  Returns `none` when the
parse fails (the constructor throws).  A string with a well-formed scheme is
parsed absolutely — special schemes additionally demand a non-empty host —
and anything else resolves relative to the origin, yielding its protocol. -/
def newURLProtocol (bp : String) (s : String) : Option String :=
  match takeScheme s.toList with
  | some (sch, rest) =>
    match sch with
    | [] => some bp
    | c :: _ =>
      if c.isAlpha then
        let proto := String.mk (sch.map Char.toLower) ++ ":"
        if proto ∈ specialProtocols then
          if hostPart (stripSlashes rest) ≠ [] then some proto else none
        else some proto
      else some bp
  | none => some bp

/-- `HowlerPlayer.isValidUrl` — source lines 29–41 (identical in both
variants): reject falsy and non-string input, parse against the document
origin, accept only the `http:`/`https:` protocols, and catch any parse
failure as `false`. -/
def isValidUrl (bp : String) (url : JSVal) : Bool :=
  match url with
  | .jsStr s =>
    if s = "" then false
    else
      match newURLProtocol bp s with
      | some proto => proto == "http:" || proto == "https:"
      | none => false
  | _ => false

/-- The observable state of one engine `Howl` handle.  `gen` is the identity
of the underlying instance; `pos`/`dur` are what `seek()`/`duration()`
report (possibly NaN/non-finite before metadata arrives). -/
structure Sound where
  gen : Nat
  pos : JSNum
  dur : JSNum
  vol : JSNum
  rate : JSNum
  playing : Bool
deriving DecidableEq, Repr

/-- The per-instance `HowlerPlayer` fields: `this.sound`, `this.isDestroyed`. -/
structure HowlerPlayer where
  sound : Option Sound
  isDestroyed : Bool
deriving DecidableEq, Repr

/-- `play()`: `if (this.sound) this.sound.play()`. -/
def HowlerPlayer.play (p : HowlerPlayer) : HowlerPlayer :=
  match p.sound with
  | some s => { p with sound := some { s with playing := true } }
  | none => p

/-- `pause()`: `if (this.sound) this.sound.pause()`. -/
def HowlerPlayer.pause (p : HowlerPlayer) : HowlerPlayer :=
  match p.sound with
  | some s => { p with sound := some { s with playing := false } }
  | none => p

/-- `stop()`: `if (this.sound) this.sound.stop()` — Howler's stop halts
playback and resets the position to 0. -/
def HowlerPlayer.stop (p : HowlerPlayer) : HowlerPlayer :=
  match p.sound with
  | some s => { p with sound := some { s with playing := false, pos := .fin 0 } }
  | none => p

/-- `toggle()`: pause when playing, else play; no-op with no sound. -/
def HowlerPlayer.toggle (p : HowlerPlayer) : HowlerPlayer :=
  match p.sound with
  | some s => if s.playing then p.pause else p.play
  | none => p

/-- `seek(seconds)` — source lines 164–168: guarded by
`this.sound && !isNaN(seconds) && isFinite(seconds)`, then
`this.sound.seek(Math.max(0, seconds))`.  Note the wrapper clamps only
below at 0; no upper clamp against the duration appears in the source. -/
def HowlerPlayer.seek (p : HowlerPlayer) (seconds : JSNum) : HowlerPlayer :=
  match p.sound with
  | some s =>
    if !seconds.isNaN && seconds.isFinite then
      { p with sound := some { s with pos := jsMax (.fin 0) seconds } }
    else p
  | none => p

/-- `getCurrentTime()` — source lines 175–180. -/
def HowlerPlayer.getCurrentTime (p : HowlerPlayer) : JSNum :=
  match p.sound with
  | none => .fin 0
  | some s => if !s.pos.isNaN && s.pos.isFinite then s.pos else .fin 0

/-- `getDuration()` — source lines 187–192. -/
def HowlerPlayer.getDuration (p : HowlerPlayer) : JSNum :=
  match p.sound with
  | none => .fin 0
  | some s => if !s.dur.isNaN && s.dur.isFinite then s.dur else .fin 0

/-- `isPlaying()`. -/
def HowlerPlayer.isPlaying (p : HowlerPlayer) : Bool :=
  match p.sound with
  | some s => s.playing
  | none => false

/-- `setVolume(volume)` — source lines 208–212: guarded by
`this.sound && !isNaN(volume)`, then `volume(Math.max(0, Math.min(1, volume)))`. -/
def HowlerPlayer.setVolume (p : HowlerPlayer) (volume : JSNum) : HowlerPlayer :=
  match p.sound with
  | some s =>
    if !volume.isNaN then
      { p with sound := some { s with vol := jsMax (.fin 0) (jsMin (.fin 1) volume) } }
    else p
  | none => p

/-- `setRate(rate)` — source lines 228–232: guarded by
`this.sound && !isNaN(rate)`, then `rate(Math.max(0.5, Math.min(2, rate)))`. -/
def HowlerPlayer.setRate (p : HowlerPlayer) (rate : JSNum) : HowlerPlayer :=
  match p.sound with
  | some s =>
    if !rate.isNaN then
      { p with sound := some { s with rate := jsMax (.fin (1/2)) (jsMin (.fin 2) rate) } }
    else p
  | none => p

/-- Engine-side pool state: the generation numbers of the `Howl` instances
created so far and not yet unloaded, plus the next fresh generation. -/
structure Engine where
  live : List Nat
  nextGen : Nat
deriving DecidableEq, Repr

/-- The synchronous outcome of `load(url)`: either the promise is left
pending on the engine callbacks of a freshly created `Howl`, or it was
rejected before any resource was touched. -/
inductive LoadResult where
  | pending (gen : Nat)
  | rejected (msg : String)
deriving DecidableEq, Repr

/-- A freshly constructed `Howl` before its metadata is loaded. -/
def newSound (g : Nat) : Sound :=
  { gen := g, pos := .fin 0, dur := .fin 0, vol := .fin 1, rate := .fin 1, playing := false }

/-- `load(url, callbacks)` — source lines 50–117: reject when destroyed;
reject on invalid URL (before the previous sound is touched); otherwise
stop and unload the previous sound (dropping it from the engine pool) and
create a fresh `Howl` bound to the session. -/
def load (bp : String) (p : HowlerPlayer) (e : Engine) (url : JSVal) :
    HowlerPlayer × Engine × LoadResult :=
  if p.isDestroyed then (p, e, .rejected "Player has been destroyed")
  else if !(isValidUrl bp url) then (p, e, .rejected "Invalid audio URL")
  else
    let e1 : Engine :=
      match p.sound with
      | none => e
      | some s => { e with live := e.live.erase s.gen }
    let g := e1.nextGen
    ({ p with sound := some (newSound g) },
     { live := g :: e1.live, nextGen := g + 1 },
     .pending g)

/-- `destroy()` — source lines 246–262: set the destroyed flag; if a sound
is bound, stop and unload it (inside a try/catch whose only effect is a
logged warning) and null the handle.  The engine drops the unloaded
generation from its pool. -/
def destroyPE : HowlerPlayer × Engine → HowlerPlayer × Engine
  | (p, e) =>
    let p1 : HowlerPlayer := { p with isDestroyed := true }
    match p1.sound with
    | none => (p1, e)
    | some s => ({ p1 with sound := none }, { e with live := e.live.erase s.gen })

/-- The engine callback kinds registered by `load` (`onload`, `onloaderror`,
`onplay`, `onpause`, `onend`, `onstop`, `onseek`). -/
inductive CbKind where
  | onLoad
  | onError
  | onPlay
  | onPause
  | onEnd
  | onStop
  | onSeek
deriving DecidableEq, Repr

/-- One player together with the engine pool and the history of caller
callbacks actually invoked (each tagged with the generation of the `Howl`
it was registered under). -/
structure Config where
  player : HowlerPlayer
  engine : Engine
  fired : List (Nat × CbKind)
deriving DecidableEq, Repr

/-- Delivery of an engine event for generation `g`.  An unloaded `Howl` has
its listeners removed, so nothing is delivered unless `g` is still live.
The registered closures guard on `this.isDestroyed` — except `onloaderror`,
which in the source invokes `callbacks.onError` unconditionally. -/
def deliver (c : Config) (g : Nat) (ev : CbKind) : Config :=
  if g ∈ c.engine.live then
    if ev = .onError then { c with fired := (g, ev) :: c.fired }
    else if c.player.isDestroyed then c
    else { c with fired := (g, ev) :: c.fired }
  else c

/-- The operations that can interleave on a session: UI commands and
asynchronous engine callback deliveries. -/
inductive Op where
  | opLoad (url : JSVal)
  | opDeliver (g : Nat) (ev : CbKind)
  | opDestroy
  | opPlay
  | opPause
  | opStop
  | opToggle
  | opSeek (x : JSNum)
  | opSetVolume (x : JSNum)
  | opSetRate (x : JSNum)
deriving DecidableEq, Repr

/-- One step of the session/engine system. -/
def stepOp (bp : String) (c : Config) : Op → Config
  | .opLoad url =>
    let r := load bp c.player c.engine url
    { c with player := r.1, engine := r.2.1 }
  | .opDeliver g ev => deliver c g ev
  | .opDestroy =>
    let r := destroyPE (c.player, c.engine)
    { c with player := r.1, engine := r.2 }
  | .opPlay => { c with player := c.player.play }
  | .opPause => { c with player := c.player.pause }
  | .opStop => { c with player := c.player.stop }
  | .opToggle => { c with player := c.player.toggle }
  | .opSeek x => { c with player := c.player.seek x }
  | .opSetVolume x => { c with player := c.player.setVolume x }
  | .opSetRate x => { c with player := c.player.setRate x }

/-- Run a sequence of operations. -/
def runOps (bp : String) (c : Config) : List Op → Config
  | [] => c
  | op :: ops => runOps bp (stepOp bp c op) ops

/-- Well-formedness: every generation in the pool, bound to the player, or
recorded in the callback history was issued before `nextGen`. -/
def WF (c : Config) : Bool :=
  c.engine.live.all (fun g => g < c.engine.nextGen) &&
  (match c.player.sound with
   | some s => s.gen < c.engine.nextGen
   | none => true) &&
  c.fired.all (fun gk => gk.1 < c.engine.nextGen)

/-- Generation `g` is dead: no longer in the engine pool, already issued,
and none of its callbacks have been invoked.  Once dead, a generation can
never fire a callback again. -/
def staleGen (c : Config) (g : Nat) : Prop :=
  g ∉ c.engine.live ∧ g < c.engine.nextGen ∧ ∀ ev, (g, ev) ∉ c.fired

/-- The process-wide Howler global, as seen by the second variant's static
cleanup helpers.  `unloadThrows` models whether the underlying
`Howler._unload()` engine call fails on this pass. -/
structure HowlerGlobal where
  howlerDefined : Bool
  unloadThrows : Bool
  unloaded : Bool
deriving DecidableEq, Repr

/-- The engine primitive `Howler._unload()`: frees the pool, or throws. -/
def howlerUnload (g : HowlerGlobal) : Except String HowlerGlobal :=
  if g.unloadThrows then .error "engine error" else .ok { g with unloaded := true }

/-- The body of the `_setupPeriodicCleanup` interval callback — source
lines 305–310 (second variant): `if (typeof Howler !== 'undefined')
Howler._unload();` with no surrounding try/catch, so an engine error
propagates to the timer's caller. -/
def periodicCleanupTick (g : HowlerGlobal) : Except String HowlerGlobal :=
  if g.howlerDefined then howlerUnload g else .ok g

/-- The global cleanup at the end of `destroy()` — source lines 596–603
(second variant): the engine call is wrapped in try/catch; an error is
caught and turned into a logged warning, never propagated. -/
def destroyGlobalCleanup (g : HowlerGlobal) : HowlerGlobal × List String :=
  if g.howlerDefined then
    match howlerUnload g with
    | .ok g2 => (g2, [])
    | .error e => (g, ["Error during global Howler cleanup: " ++ e])
  else (g, [])

/-- A playlist track as the store sees it (only the fields the embedded
operations inspect: the identity and the source URL). -/
structure Track where
  id : Nat
  url : String
deriving DecidableEq, Repr

/-- The store's repeat mode: `'none' | 'all' | 'one'`. -/
inductive RepeatMode where
  | rnone
  | rall
  | rone
deriving DecidableEq, Repr

/-- The zustand player store (`playerStore.js`), restricted to the fields
the embedded actions read or write. -/
structure PlayerStore where
  currentTrack : Option Track
  isPlaying : Bool
  isLoading : Bool
  currentTime : ℚ
  duration : ℚ
  progress : ℚ
  volume : JSNum
  playbackRate : JSNum
  playlist : List Track
  currentTrackIndex : Nat
  originalPlaylist : List Track
  shuffleMode : Bool
  repeatMode : RepeatMode
deriving DecidableEq, Repr

/-- Store `setVolume(volume)` — `Math.max(0, Math.min(1, volume))`, with no
NaN guard: a NaN argument propagates into the stored value. -/
def PlayerStore.setVolume (s : PlayerStore) (volume : JSNum) : PlayerStore :=
  { s with volume := jsMax (.fin 0) (jsMin (.fin 1) volume) }

/-- Store `setPlaybackRate(rate)` — `Math.max(0.5, Math.min(2, rate))`, with
no NaN guard. -/
def PlayerStore.setPlaybackRate (s : PlayerStore) (rate : JSNum) : PlayerStore :=
  { s with playbackRate := jsMax (.fin (1/2)) (jsMin (.fin 2) rate) }

/-- Store `setCurrentTime(currentTime)`: also recomputes `progress`. -/
def PlayerStore.setCurrentTime (s : PlayerStore) (ct : ℚ) : PlayerStore :=
  { s with currentTime := ct, progress := if s.duration > 0 then ct / s.duration else 0 }

/-- Store `setIsPlaying`. -/
def PlayerStore.setIsPlaying (s : PlayerStore) (b : Bool) : PlayerStore :=
  { s with isPlaying := b }

/-- `Array.prototype.findIndex`, with JS's -1 rendered as `none`. -/
def findIndex (p : α → Bool) : List α → Option Nat
  | [] => none
  | x :: xs => if p x then some 0 else (findIndex p xs).map (· + 1)

/-- The destructuring swap `[a[i], a[j]] = [a[j], a[i]]`; out-of-range
indices leave the list unchanged. -/
def swapL (l : List α) (i j : Nat) : List α :=
  match l[i]?, l[j]? with
  | some a, some b => (l.set i b).set j a
  | _, _ => l

/-- The Fisher–Yates loop `for (i = n-1; i > 0; i--)`; at index `i` the
source draws `j = Math.floor(Math.random() * (i + 1)) ∈ [0, i]`, modelled by
`r i % (i + 1)` for an arbitrary randomness source `r`. -/
def fyLoop (r : Nat → Nat) : Nat → List α → List α
  | 0, l => l
  | i + 1, l => fyLoop r i (swapL l (i + 1) (r (i + 1) % (i + 2)))

/-- The full Fisher–Yates shuffle of `toggleShuffle`. -/
def fisherYates (r : Nat → Nat) (l : List α) : List α :=
  fyLoop r (l.length - 1) l

/-- Store `toggleShuffle()` — source lines 81–130.  Enabling: copy the
playlist, splice out the entry whose id matches the current track (when
found), Fisher–Yates shuffle the rest, unshift the current track back to the
front, and reset the index to 0.  Disabling: restore `originalPlaylist` and
point the index at the current track's position there (0 when absent). -/
def PlayerStore.toggleShuffle (r : Nat → Nat) (s : PlayerStore) : PlayerStore :=
  if !s.shuffleMode then
    let shuffled := s.playlist
    let currentIndex : Option Nat :=
      match s.currentTrack with
      | some ct => findIndex (fun t => t.id == ct.id) shuffled
      | none => none
    let base :=
      match currentIndex with
      | some i => shuffled.eraseIdx i
      | none => shuffled
    let shuffled2 := fisherYates r base
    let final :=
      match s.currentTrack, currentIndex with
      | some ct, some _ => ct :: shuffled2
      | _, _ => shuffled2
    { s with shuffleMode := true, playlist := final, currentTrackIndex := 0 }
  else
    let newIndex : Option Nat :=
      match s.currentTrack with
      | some ct => findIndex (fun t => t.id == ct.id) s.originalPlaylist
      | none => none
    { s with
      shuffleMode := false
      playlist := s.originalPlaylist
      currentTrackIndex := newIndex.getD 0 }

/-- Store `nextTrack()` — source lines 143–172: with repeat-one, return true
without touching the cursor; otherwise advance, wrapping to 0 under
repeat-all, and report whether a track was selected. -/
def PlayerStore.nextTrack (s : PlayerStore) : PlayerStore × Bool :=
  if s.repeatMode = .rone then (s, true)
  else
    let nextIndex := s.currentTrackIndex + 1
    if nextIndex < s.playlist.length then
      ({ s with currentTrackIndex := nextIndex, currentTrack := s.playlist[nextIndex]? }, true)
    else if s.repeatMode = .rall then
      ({ s with currentTrackIndex := 0, currentTrack := s.playlist[0]? }, true)
    else (s, false)

/-- The component-level state `AudioPlayer` closes over: the store and the
`HowlerPlayer` instance held in `playerRef`. -/
structure SessionState where
  store : PlayerStore
  player : HowlerPlayer
deriving DecidableEq, Repr

/-- `handleSeek(time)` — `AudioPlayer.js` lines 285–293: return on
NaN/non-finite, else seek the player and store the new time. -/
def handleSeek (s : SessionState) (time : JSNum) : SessionState :=
  match time with
  | .fin q => { store := s.store.setCurrentTime q, player := s.player.seek (.fin q) }
  | _ => s

/-- `handlePlay()` — `AudioPlayer.js` lines 254–259. -/
def handlePlay (s : SessionState) : SessionState :=
  { store := s.store.setIsPlaying true, player := s.player.play }

/-- `handleTrackEnd()` — `AudioPlayer.js` lines 360–373: with repeat-one,
seek to 0 and replay; otherwise advance the cursor, and stop when no next
track exists. -/
def handleTrackEnd (s : SessionState) : SessionState :=
  if s.store.repeatMode = .rone then handlePlay (handleSeek s (.fin 0))
  else
    let r := s.store.nextTrack
    if r.2 then { s with store := r.1 }
    else { s with store := r.1.setIsPlaying false }

/-! Concrete states used by counterexamples and witnesses. -/

/-- A playing sound with duration 180 s, position 5 s. -/
def soundC2 : Sound :=
  { gen := 0, pos := .fin 5, dur := .fin 180, vol := .fin 1, rate := .fin 1, playing := true }

/-- A live player bound to `soundC2`. -/
def playerC2 : HowlerPlayer := { sound := some soundC2, isDestroyed := false }

/-- A store in its initial configuration (volume 1, rate 1). -/
def storeC8 : PlayerStore :=
  { currentTrack := none, isPlaying := false, isLoading := false, currentTime := 0,
    duration := 0, progress := 0, volume := .fin 1, playbackRate := .fin 1, playlist := [],
    currentTrackIndex := 0, originalPlaylist := [], shuffleMode := false, repeatMode := .rnone }

/-- A live player with a bound, playing sound. -/
def playerC6 : HowlerPlayer :=
  { sound := some
      { gen := 3, pos := .fin 42, dur := .fin 100, vol := .fin 1, rate := .fin 1,
        playing := true },
    isDestroyed := false }

/-- An engine pool holding `playerC6`'s sound. -/
def engineC6 : Engine := { live := [3], nextGen := 4 }

/-- A session in repeat-one mode with a bound sound, mid-track. -/
def sessC7 : SessionState :=
  { store :=
      { currentTrack := some { id := 7, url := "https://cdn.example/a.mp3" },
        isPlaying := true, isLoading := false, currentTime := 170, duration := 180,
        progress := 0, volume := .fin 1, playbackRate := .fin 1,
        playlist := [{ id := 7, url := "https://cdn.example/a.mp3" },
                     { id := 8, url := "https://cdn.example/b.mp3" }],
        currentTrackIndex := 0,
        originalPlaylist := [{ id := 7, url := "https://cdn.example/a.mp3" },
                            { id := 8, url := "https://cdn.example/b.mp3" }],
        shuffleMode := false, repeatMode := .rone },
    player :=
      { sound := some
          { gen := 1, pos := .fin 170, dur := .fin 180, vol := .fin 1,
            rate := .fin 1, playing := true },
        isDestroyed := false } }

/-- A three-track store with shuffle off and the middle track current. -/
def storeC10 : PlayerStore :=
  { currentTrack := some { id := 2, url := "https://cdn.example/b.mp3" },
    isPlaying := false, isLoading := false, currentTime := 0, duration := 0, progress := 0,
    volume := .fin 1, playbackRate := .fin 1,
    playlist := [{ id := 1, url := "https://cdn.example/a.mp3" },
                 { id := 2, url := "https://cdn.example/b.mp3" },
                 { id := 3, url := "https://cdn.example/c.mp3" }],
    currentTrackIndex := 1,
    originalPlaylist := [{ id := 1, url := "https://cdn.example/a.mp3" },
                        { id := 2, url := "https://cdn.example/b.mp3" },
                        { id := 3, url := "https://cdn.example/c.mp3" }],
    shuffleMode := false, repeatMode := .rnone }

/-- A two-track store with duplicate track ids (both id 1) and the second
track current. -/
def storeC10dup : PlayerStore :=
  { currentTrack := some { id := 1, url := "https://cdn.example/b.mp3" },
    isPlaying := false, isLoading := false, currentTime := 0, duration := 0, progress := 0,
    volume := .fin 1, playbackRate := .fin 1,
    playlist := [{ id := 1, url := "https://cdn.example/a.mp3" },
                 { id := 1, url := "https://cdn.example/b.mp3" }],
    currentTrackIndex := 1,
    originalPlaylist := [{ id := 1, url := "https://cdn.example/a.mp3" },
                        { id := 1, url := "https://cdn.example/b.mp3" }],
    shuffleMode := false, repeatMode := .rnone }

/-- A fresh, idle player configuration with an empty engine pool. -/
def configC1 : Config :=
  { player := { sound := none, isDestroyed := false },
    engine := { live := [], nextGen := 0 },
    fired := [] }

/-! Claim theorems. -/

/-- C2 counterexample: the claim states that `seek(x)` stores
`max(0, min(x, duration))`, so the position would stay within
`[0, duration]`.  On a player whose sound has duration 180, `seek(9999)`
stores 9999 (the source clamps only below, with `Math.max(0, seconds)`),
not the claimed 180. -/
theorem seek_not_clamped_to_duration :
    (playerC2.seek (.fin 9999)).getCurrentTime = .fin 9999 ∧
    (playerC2.seek (.fin 9999)).getCurrentTime ≠
      jsMax (.fin 0) (jsMin (.fin 9999) (playerC2.getDuration)) := by
  constructor
  · rfl
  · decide

/-- C2 (amended): `seek(x)` leaves the position unchanged when `x` is NaN
or non-finite (and when no sound is bound), and otherwise stores
`max(0, x)` — the wrapper clamps the position below at 0 but performs no
upper clamp against the duration. -/
theorem seek_clamps_below (p : HowlerPlayer) (s : Sound) (q : ℚ) :
    p.seek .nan = p ∧ p.seek .inf = p ∧ p.seek .ninf = p ∧
    HowlerPlayer.seek { p with sound := none } (.fin q) = { p with sound := none } ∧
    HowlerPlayer.seek { p with sound := some s } (.fin q) =
      { p with sound := some { s with pos := .fin (max 0 q) } } ∧
    (0 : ℚ) ≤ max 0 q := by
  obtain ⟨so, d⟩ := p
  refine ⟨?_, ?_, ?_, rfl, rfl, le_max_left 0 q⟩ <;> cases so <;> rfl

/-- C9: `getCurrentTime()` and `getDuration()` always return a finite
number; they return 0 when no sound is bound and 0 when the engine reports
NaN or an infinite value. -/
theorem numeric_getters_total (p : HowlerPlayer) (s : Sound) :
    (p.getCurrentTime).isFinite = true ∧ (p.getDuration).isFinite = true ∧
    HowlerPlayer.getCurrentTime { p with sound := none } = .fin 0 ∧
    HowlerPlayer.getDuration { p with sound := none } = .fin 0 ∧
    HowlerPlayer.getCurrentTime { p with sound := some { s with pos := .nan } } = .fin 0 ∧
    HowlerPlayer.getCurrentTime { p with sound := some { s with pos := .inf } } = .fin 0 ∧
    HowlerPlayer.getCurrentTime { p with sound := some { s with pos := .ninf } } = .fin 0 ∧
    HowlerPlayer.getDuration { p with sound := some { s with dur := .nan } } = .fin 0 ∧
    HowlerPlayer.getDuration { p with sound := some { s with dur := .inf } } = .fin 0 ∧
    HowlerPlayer.getDuration { p with sound := some { s with dur := .ninf } } = .fin 0 := by
  obtain ⟨so, d⟩ := p
  obtain ⟨g, pos, dur, vol, rate, pl⟩ := s
  refine ⟨?_, ?_, rfl, rfl, rfl, rfl, rfl, rfl, rfl, rfl⟩
  · cases so with
    | none => rfl
    | some s2 =>
      obtain ⟨g2, pos2, dur2, vol2, rate2, pl2⟩ := s2
      cases pos2 <;> rfl
  · cases so with
    | none => rfl
    | some s2 =>
      obtain ⟨g2, pos2, dur2, vol2, rate2, pl2⟩ := s2
      cases dur2 <;> rfl

/-- C8 counterexample: the claim states a NaN argument leaves the stored
value unchanged, but the store's `setVolume`/`setPlaybackRate` have no NaN
guard: `Math.max(0, Math.min(1, NaN))` is NaN, so on the initial store
(volume 1, rate 1) a NaN argument overwrites the stored value with NaN. -/
theorem store_nan_not_ignored :
    (storeC8.setVolume .nan).volume ≠ storeC8.volume ∧
    (storeC8.setVolume .nan).volume = .nan ∧
    (storeC8.setPlaybackRate .nan).playbackRate ≠ storeC8.playbackRate ∧
    (storeC8.setPlaybackRate .nan).playbackRate = .nan := by
  refine ⟨by decide, rfl, by decide, rfl⟩

/-- C8 (amended): the player's `setVolume`/`setRate` clamp finite input to
`[0,1]` and `[0.5,2]` and ignore NaN (in particular −1 ↦ 0, 5 ↦ 1,
0.1 ↦ 0.5, 10 ↦ 2); the store's `setVolume`/`setPlaybackRate` clamp
numeric input identically but propagate a NaN argument into the stored
value instead of ignoring it. -/
theorem volume_rate_clamping (p : HowlerPlayer) (s : Sound) (st : PlayerStore) (q : ℚ) :
    p.setVolume .nan = p ∧ p.setRate .nan = p ∧
    HowlerPlayer.setVolume { p with sound := some s } (.fin q) =
      { p with sound := some { s with vol := .fin (max 0 (min 1 q)) } } ∧
    HowlerPlayer.setRate { p with sound := some s } (.fin q) =
      { p with sound := some { s with rate := .fin (max (1/2) (min 2 q)) } } ∧
    HowlerPlayer.setVolume { p with sound := some s } (.fin (-1)) =
      { p with sound := some { s with vol := .fin 0 } } ∧
    HowlerPlayer.setVolume { p with sound := some s } (.fin 5) =
      { p with sound := some { s with vol := .fin 1 } } ∧
    HowlerPlayer.setRate { p with sound := some s } (.fin (1/10)) =
      { p with sound := some { s with rate := .fin (1/2) } } ∧
    HowlerPlayer.setRate { p with sound := some s } (.fin 10) =
      { p with sound := some { s with rate := .fin 2 } } ∧
    (st.setVolume (.fin q)).volume = .fin (max 0 (min 1 q)) ∧
    (st.setPlaybackRate (.fin q)).playbackRate = .fin (max (1/2) (min 2 q)) ∧
    (st.setVolume .nan).volume = .nan ∧
    (st.setPlaybackRate .nan).playbackRate = .nan := by
  obtain ⟨so, d⟩ := p
  have hv1 : max (0 : ℚ) (min 1 (-1)) = 0 := by norm_num
  have hv2 : max (0 : ℚ) (min 1 5) = 1 := by norm_num
  refine ⟨?_, ?_, rfl, rfl, ?_, ?_, ?_, ?_, rfl, rfl, rfl, rfl⟩
  · cases so <;> rfl
  · cases so <;> rfl
  · simp [HowlerPlayer.setVolume, JSNum.isNaN, jsMin, jsMax, hv1]
  · simp [HowlerPlayer.setVolume, JSNum.isNaN, jsMin, jsMax, hv2]
  · norm_num [HowlerPlayer.setRate, JSNum.isNaN, jsMin, jsMax, min_def, max_def]
  · norm_num [HowlerPlayer.setRate, JSNum.isNaN, jsMin, jsMax, min_def, max_def]

/-- C5 counterexample: the claim states every forced reclamation pass —
including the periodic cleanup timer callback — catches engine errors.  The
timer body in `_setupPeriodicCleanup` calls `Howler._unload()` with no
try/catch, so when the engine call fails the error propagates out of the
callback. -/
theorem periodic_cleanup_propagates :
    periodicCleanupTick { howlerDefined := true, unloadThrows := true, unloaded := false } =
      .error "engine error" := rfl

/-- C5 (amended): the global cleanup performed during `destroy()` catches
an engine error and converts it into a logged warning, never propagating
it; the periodic cleanup timer callback is unguarded, failing exactly
when Howler is defined and the engine unload fails. -/
theorem reclamation_error_boundary (g : HowlerGlobal) :
    ((destroyGlobalCleanup g).2 = [] ∨
      (destroyGlobalCleanup g).2 = ["Error during global Howler cleanup: engine error"]) ∧
    ((∃ e, periodicCleanupTick g = .error e) ↔
      g.howlerDefined = true ∧ g.unloadThrows = true) := by
  obtain ⟨hd, ht, hu⟩ := g
  cases hd <;> cases ht <;>
    simp [destroyGlobalCleanup, periodicCleanupTick, howlerUnload]

/-- C6: when the URL fails validation, `load` rejects synchronously before
any resource is touched: the player (including its bound sound, which is
neither stopped nor unloaded) and the engine pool are returned exactly
unchanged. -/
theorem invalid_source_atomic (bp : String) (p : HowlerPlayer) (e : Engine) (url : JSVal)
    (hv : isValidUrl bp url = false) :
    (load bp p e url).1 = p ∧ (load bp p e url).2.1 = e ∧
    (load bp p e url).2.2 =
      .rejected (if p.isDestroyed then "Player has been destroyed" else "Invalid audio URL") := by
  cases hd : p.isDestroyed <;> simp [load, hd, hv]

/-- C6 witness: a `javascript:` URL fails validation and `load` on a live
player with a bound, playing sound leaves the player and pool untouched. -/
theorem invalid_source_atomic_witness :
    isValidUrl "https:" (.jsStr "javascript:alert(1)") = false ∧
    (load "https:" playerC6 engineC6 (.jsStr "javascript:alert(1)")).1 = playerC6 ∧
    (load "https:" playerC6 engineC6 (.jsStr "javascript:alert(1)")).2.1 = engineC6 :=
  ⟨by decide,
   (invalid_source_atomic "https:" playerC6 engineC6 _ (by decide)).1,
   (invalid_source_atomic "https:" playerC6 engineC6 _ (by decide)).2.1⟩

/-- C3: `destroy()` is idempotent — iterating it any number of times equals
calling it once, with no engine call (hence no possible exception) on the
repeat calls since the handle is already null — and after `destroy()` every
transport operation is a no-op while `load` rejects with
"Player has been destroyed" leaving all state unchanged. -/
theorem destroy_idempotent (p : HowlerPlayer) (e : Engine) (n : Nat)
    (x v r : JSNum) (bp : String) (e2 : Engine) (url : JSVal) :
    destroyPE^[n + 1] (p, e) = destroyPE (p, e) ∧
    ((destroyPE (p, e)).1).isDestroyed = true ∧
    ((destroyPE (p, e)).1).sound = none ∧
    ((destroyPE (p, e)).1).play = (destroyPE (p, e)).1 ∧
    ((destroyPE (p, e)).1).pause = (destroyPE (p, e)).1 ∧
    ((destroyPE (p, e)).1).stop = (destroyPE (p, e)).1 ∧
    ((destroyPE (p, e)).1).toggle = (destroyPE (p, e)).1 ∧
    ((destroyPE (p, e)).1).seek x = (destroyPE (p, e)).1 ∧
    ((destroyPE (p, e)).1).setVolume v = (destroyPE (p, e)).1 ∧
    ((destroyPE (p, e)).1).setRate r = (destroyPE (p, e)).1 ∧
    load bp ((destroyPE (p, e)).1) e2 url =
      ((destroyPE (p, e)).1, e2, .rejected "Player has been destroyed") := by
  have hinv : ∀ y : HowlerPlayer × Engine, destroyPE (destroyPE y) = destroyPE y := by
    rintro ⟨⟨so, d⟩, e3⟩
    cases so <;> rfl
  have hiter : destroyPE^[n + 1] (p, e) = destroyPE (p, e) := by
    induction n with
    | zero => simp
    | succ m ih =>
      rw [Function.iterate_succ_apply' destroyPE (m + 1) (p, e), ih, hinv]
  obtain ⟨so, d⟩ := p
  exact ⟨hiter, by cases so <;> rfl, by cases so <;> rfl, by cases so <;> rfl,
    by cases so <;> rfl, by cases so <;> rfl, by cases so <;> rfl, by cases so <;> rfl,
    by cases so <;> rfl, by cases so <;> rfl, by cases so <;> rfl⟩

/-- C4: `isValidUrl` fails closed — false on null, undefined, booleans,
numbers, the empty string, any string whose parse fails, and any string
whose resolved protocol is neither `http:` nor `https:`; true exactly for
strings resolving to an `http:`/`https:` protocol.  In particular
`javascript:` and `ftp:` URLs are rejected, absolute `https:` URLs are
accepted, and relative URLs resolving against an http(s) document origin
are accepted.  The function is total by construction (the parse failure
branch models the caught exception). -/
theorem url_validation (bp : String) (n : JSNum) (b : Bool) :
    isValidUrl bp .jsNull = false ∧
    isValidUrl bp .jsUndefined = false ∧
    isValidUrl bp (.jsBool b) = false ∧
    isValidUrl bp (.jsNumV n) = false ∧
    isValidUrl bp (.jsStr "") = false ∧
    (∀ s : String, newURLProtocol bp s = none → isValidUrl bp (.jsStr s) = false) ∧
    (∀ s proto, newURLProtocol bp s = some proto → proto ≠ "http:" → proto ≠ "https:" →
      isValidUrl bp (.jsStr s) = false) ∧
    (∀ s : String, s ≠ "" →
      (newURLProtocol bp s = some "http:" ∨ newURLProtocol bp s = some "https:") →
      isValidUrl bp (.jsStr s) = true) ∧
    isValidUrl "https:" (.jsStr "javascript:alert(1)") = false ∧
    isValidUrl "https:" (.jsStr "ftp://host/file.mp3") = false ∧
    isValidUrl "https:" (.jsStr "https://host/file.mp3") = true ∧
    isValidUrl "https:" (.jsStr "/relative/file.mp3") = true ∧
    isValidUrl "https:" (.jsStr "http://") = false := by
  refine ⟨rfl, rfl, rfl, rfl, rfl, ?_, ?_, ?_,
    by decide, by decide, by decide, by decide, by decide⟩
  · intro s h
    by_cases hs : s = ""
    · simp [isValidUrl, hs]
    · simp [isValidUrl, hs, h]
  · intro s proto h hp hps
    by_cases hs : s = ""
    · simp [isValidUrl, hs]
    · simp [isValidUrl, hs, h, hp, hps]
  · intro s hs h
    rcases h with h | h <;> simp [isValidUrl, hs, h]

/-- C4 witness: the non-http(s) branch applied to `ftp://host/file.mp3`. -/
theorem url_validation_witness :
    newURLProtocol "https:" "ftp://host/file.mp3" = some "ftp:" ∧
    isValidUrl "https:" (.jsStr "ftp://host/file.mp3") = false :=
  ⟨by decide,
   (url_validation "https:" .nan true).2.2.2.2.2.2.1 "ftp://host/file.mp3" "ftp:"
     (by decide) (by decide) (by decide)⟩

/-- C7: in repeat-one mode, `handleTrackEnd` seeks the bound sound to
position 0 and replays it: the playlist cursor does not advance — the
current track, playlist and `currentTrackIndex` are unchanged — while the
same sound (same generation) is rewound to 0 and set playing; moreover the
store's `nextTrack` in repeat-one mode reports true without any state
change. -/
theorem repeat_one_replays (s : SessionState) (snd : Sound)
    (hmode : s.store.repeatMode = .rone) (hsnd : s.player.sound = some snd) :
    (handleTrackEnd s).store.currentTrackIndex = s.store.currentTrackIndex ∧
    (handleTrackEnd s).store.currentTrack = s.store.currentTrack ∧
    (handleTrackEnd s).store.playlist = s.store.playlist ∧
    (handleTrackEnd s).store.isPlaying = true ∧
    (handleTrackEnd s).store.currentTime = 0 ∧
    (handleTrackEnd s).player.sound = some { snd with pos := .fin 0, playing := true } ∧
    s.store.nextTrack = (s.store, true) := by
  obtain ⟨st, pl⟩ := s
  obtain ⟨so, d⟩ := pl
  cases hsnd
  replace hmode : st.repeatMode = .rone := hmode
  simp [handleTrackEnd, hmode, handleSeek, handlePlay, HowlerPlayer.seek,
    HowlerPlayer.play, PlayerStore.setCurrentTime, PlayerStore.setIsPlaying,
    PlayerStore.nextTrack, JSNum.isNaN, JSNum.isFinite, jsMax]

/-- C7 witness: a concrete repeat-one session near the end of its first
track replays it from 0 without advancing the cursor. -/
theorem repeat_one_replays_witness :
    sessC7.store.repeatMode = .rone ∧
    (handleTrackEnd sessC7).store.currentTrackIndex = sessC7.store.currentTrackIndex ∧
    (handleTrackEnd sessC7).store.isPlaying = true :=
  ⟨rfl, (repeat_one_replays sessC7 _ rfl rfl).1,
    (repeat_one_replays sessC7 _ rfl rfl).2.2.2.1⟩

/-- Replacing the element at a valid index and re-consing the old value
yields a permutation of consing the new value. -/
theorem cons_set_perm : ∀ (xs : List α) (m : Nat) (x b : α), xs[m]? = some b →
    List.Perm (b :: xs.set m x) (x :: xs) := by
  intro xs
  induction xs with
  | nil => intro m x b h; simp at h
  | cons y ys ih =>
    intro m x b h
    cases m with
    | zero =>
      simp at h
      subst h
      exact List.Perm.swap x y ys
    | succ k =>
      simp at h
      have h2 := ih k x b h
      exact (List.Perm.swap y b _).trans ((h2.cons y).trans (List.Perm.swap x y ys))

/-- Writing `l[j]` at index `i` and `l[i]` at index `j` permutes `l`. -/
theorem set_set_swap_perm : ∀ (l : List α) (i j : Nat) (a b : α),
    l[i]? = some a → l[j]? = some b → List.Perm ((l.set i b).set j a) l := by
  intro l
  induction l with
  | nil => intro i j a b h; simp at h
  | cons x xs ih =>
    intro i j a b hi hj
    cases i with
    | zero =>
      simp at hi
      subst hi
      cases j with
      | zero =>
        simp at hj
        subst hj
        exact List.Perm.refl _
      | succ k =>
        simp at hj
        exact cons_set_perm xs k x b hj
    | succ k =>
      cases j with
      | zero =>
        simp at hi hj
        subst hj
        exact cons_set_perm xs k x a hi
      | succ m =>
        simp at hi hj
        exact List.Perm.cons x (ih k m a b hi hj)

/-- One destructuring swap permutes the list. -/
theorem swapL_perm (l : List α) (i j : Nat) : List.Perm (swapL l i j) l := by
  unfold swapL
  cases hi : l[i]? with
  | none => exact List.Perm.refl l
  | some a =>
    cases hj : l[j]? with
    | none => exact List.Perm.refl l
    | some b => exact set_set_swap_perm l i j a b hi hj

/-- The Fisher–Yates loop permutes the list, whatever the randomness. -/
theorem fyLoop_perm (r : Nat → Nat) : ∀ (n : Nat) (l : List α),
    List.Perm (fyLoop r n l) l := by
  intro n
  induction n with
  | zero => intro l; exact List.Perm.refl l
  | succ m ih =>
    intro l
    exact (ih (swapL l (m + 1) (r (m + 1) % (m + 2)))).trans
      (swapL_perm l (m + 1) (r (m + 1) % (m + 2)))

/-- The full shuffle permutes the list. -/
theorem fisherYates_perm (r : Nat → Nat) (l : List α) :
    List.Perm (fisherYates r l) l :=
  fyLoop_perm r (l.length - 1) l

/-- When the track ids are distinct and `ct` occurs in the list, the JS
`findIndex` on id equality finds an index whose removal together with a
re-cons of `ct` permutes the list back. -/
theorem findIndex_id_perm : ∀ (l : List Track) (ct : Track), ct ∈ l →
    (l.map Track.id).Nodup →
    ∃ i, findIndex (fun t => t.id == ct.id) l = some i ∧
      List.Perm (ct :: l.eraseIdx i) l := by
  intro l
  induction l with
  | nil => intro ct hmem; simp at hmem
  | cons x xs ih =>
    intro ct hmem hnd
    by_cases hx : x.id = ct.id
    · have hxct : x = ct := by
        rcases List.mem_cons.mp hmem with h | h
        · exact h.symm
        · exfalso
          have hin : ct.id ∈ xs.map Track.id := List.mem_map_of_mem Track.id h
          have hnotin : x.id ∉ xs.map Track.id := (List.nodup_cons.mp hnd).1
          rw [hx] at hnotin
          exact hnotin hin
      subst hxct
      exact ⟨0, by simp [findIndex], by simp⟩
    · have hct : ct ∈ xs := by
        rcases List.mem_cons.mp hmem with h | h
        · exact absurd (by rw [h]) hx
        · exact h
      obtain ⟨i, hfi, hperm⟩ := ih ct hct (List.nodup_cons.mp hnd).2
      refine ⟨i + 1, by simp [findIndex, hx, hfi], ?_⟩
      exact (List.Perm.swap x ct (xs.eraseIdx i)).trans (hperm.cons x)

/-- C10 counterexample: the claim quantifies over every store state with a
non-empty playlist, but with duplicate track ids it fails.  On the playlist
`[A, B]` where both tracks carry id 1 and B is current, enabling shuffle
splices out A (the first id match of `findIndex`) yet unshifts the current
object B, producing `[B, B]` — A is lost, and the result is not a
permutation of the playlist; after toggling shuffle off, the cursor points
at index 0 although the current track B sits at position 1 of the original
order. -/
theorem toggleShuffle_not_permutation :
    (storeC10dup.toggleShuffle (fun _ => 0)).playlist =
      [{ id := 1, url := "https://cdn.example/b.mp3" },
       { id := 1, url := "https://cdn.example/b.mp3" }] ∧
    ¬ List.Perm (storeC10dup.toggleShuffle (fun _ => 0)).playlist storeC10dup.playlist ∧
    ((storeC10dup.toggleShuffle (fun _ => 0)).toggleShuffle (fun _ => 0)).currentTrackIndex
      = 0 ∧
    storeC10dup.originalPlaylist[1]? = storeC10dup.currentTrack ∧
    storeC10dup.originalPlaylist[0]? ≠ storeC10dup.currentTrack := by
  refine ⟨by decide, by decide, by decide, by decide, by decide⟩

/-- C10 (amended): for every non-shuffled store whose track ids are
distinct and whose current track occurs in the playlist and at position `k`
of the original playlist, enabling shuffle produces a permutation of the
playlist with the current track at index 0 (cursor reset to 0), and
toggling again restores exactly `originalPlaylist` with the cursor pointing
at the current track's position `k` in that original order.  (The
hypotheses force the playlist to be non-empty; with duplicate ids the
splice/unshift pair can drop a track, as the counterexample shows.) -/
theorem toggleShuffle_round_trip (r r2 : Nat → Nat) (s : PlayerStore) (ct : Track) (k : Nat)
    (hsh : s.shuffleMode = false)
    (hct : s.currentTrack = some ct)
    (hmem : ct ∈ s.playlist)
    (hnd : (s.playlist.map Track.id).Nodup)
    (horig : findIndex (fun t => t.id == ct.id) s.originalPlaylist = some k) :
    (s.toggleShuffle r).shuffleMode = true ∧
    List.Perm (s.toggleShuffle r).playlist s.playlist ∧
    (s.toggleShuffle r).playlist.head? = some ct ∧
    (s.toggleShuffle r).currentTrackIndex = 0 ∧
    ((s.toggleShuffle r).toggleShuffle r2).shuffleMode = false ∧
    ((s.toggleShuffle r).toggleShuffle r2).playlist = s.originalPlaylist ∧
    ((s.toggleShuffle r).toggleShuffle r2).currentTrackIndex = k := by
  obtain ⟨i, hfi, hperm⟩ := findIndex_id_perm s.playlist ct hmem hnd
  have hs1 : s.toggleShuffle r =
      { s with shuffleMode := true,
               playlist := ct :: fisherYates r (s.playlist.eraseIdx i),
               currentTrackIndex := 0 } := by
    simp [PlayerStore.toggleShuffle, hsh, hct, hfi]
  have hs2 : (s.toggleShuffle r).toggleShuffle r2 =
      { s with shuffleMode := false,
               playlist := s.originalPlaylist,
               currentTrackIndex := k } := by
    rw [hs1]
    simp [PlayerStore.toggleShuffle, hct, horig]
  refine ⟨by rw [hs1], ?_, by rw [hs1]; rfl, by rw [hs1],
    by rw [hs2], by rw [hs2], by rw [hs2]⟩
  rw [hs1]
  exact ((fisherYates_perm r (s.playlist.eraseIdx i)).cons ct).trans hperm

/-- C10 witness: a three-track store with the middle track current:
shuffle on and off restores the original playlist, the cursor returns to
position 1, and the shuffled playlist is a permutation of the original. -/
theorem toggleShuffle_round_trip_witness :
    ((storeC10.toggleShuffle (fun _ => 0)).toggleShuffle (fun _ => 0)).playlist =
      storeC10.originalPlaylist ∧
    ((storeC10.toggleShuffle (fun _ => 0)).toggleShuffle (fun _ => 0)).currentTrackIndex = 1 ∧
    List.Perm (storeC10.toggleShuffle (fun _ => 0)).playlist storeC10.playlist :=
  ⟨(toggleShuffle_round_trip (fun _ => 0) (fun _ => 0) storeC10 _ 1 rfl rfl (by decide)
      (by decide) (by decide)).2.2.2.2.2.1,
   (toggleShuffle_round_trip (fun _ => 0) (fun _ => 0) storeC10 _ 1 rfl rfl (by decide)
      (by decide) (by decide)).2.2.2.2.2.2,
   (toggleShuffle_round_trip (fun _ => 0) (fun _ => 0) storeC10 _ 1 rfl rfl (by decide)
      (by decide) (by decide)).2.1⟩

/-- A rejected `load` (destroyed player or invalid URL) changes nothing. -/
theorem load_rejected (bp : String) (p : HowlerPlayer) (e : Engine) (url : JSVal)
    (h : p.isDestroyed = true ∨ isValidUrl bp url = false) :
    (load bp p e url).1 = p ∧ (load bp p e url).2.1 = e := by
  rcases h with h | h
  · simp [load, h]
  · cases hd : p.isDestroyed <;> simp [load, hd, h]

/-- A successful `load` on a player with no bound sound: a fresh generation
is created and pushed into the pool. -/
theorem load_success_none (bp : String) (p : HowlerPlayer) (e : Engine) (url : JSVal)
    (hd : p.isDestroyed = false) (hv : isValidUrl bp url = true) (hs : p.sound = none) :
    load bp p e url =
      ({ p with sound := some (newSound e.nextGen) },
       { live := e.nextGen :: e.live, nextGen := e.nextGen + 1 },
       .pending e.nextGen) := by
  simp [load, hd, hv, hs]

/-- A successful `load` on a player with a bound sound: the previous sound
is stopped and unloaded (its generation leaves the pool) and a fresh
generation is created and pushed. -/
theorem load_success_some (bp : String) (p : HowlerPlayer) (e : Engine) (url : JSVal)
    (s : Sound) (hd : p.isDestroyed = false) (hv : isValidUrl bp url = true)
    (hs : p.sound = some s) :
    load bp p e url =
      ({ p with sound := some (newSound e.nextGen) },
       { live := e.nextGen :: e.live.erase s.gen, nextGen := e.nextGen + 1 },
       .pending e.nextGen) := by
  simp [load, hd, hv, hs]

/-- `stepOp` form of `load_success_none`. -/
theorem stepOp_load_none (bp : String) (c : Config) (url : JSVal)
    (hd : c.player.isDestroyed = false) (hv : isValidUrl bp url = true)
    (hs : c.player.sound = none) :
    stepOp bp c (.opLoad url) = { c with
      player := { c.player with sound := some (newSound c.engine.nextGen) },
      engine := { live := c.engine.nextGen :: c.engine.live,
                  nextGen := c.engine.nextGen + 1 } } := by
  show { c with player := (load bp c.player c.engine url).1,
                engine := (load bp c.player c.engine url).2.1 } = _
  rw [load_success_none bp c.player c.engine url hd hv hs]

/-- `stepOp` form of `load_success_some`. -/
theorem stepOp_load_some (bp : String) (c : Config) (url : JSVal) (s : Sound)
    (hd : c.player.isDestroyed = false) (hv : isValidUrl bp url = true)
    (hs : c.player.sound = some s) :
    stepOp bp c (.opLoad url) = { c with
      player := { c.player with sound := some (newSound c.engine.nextGen) },
      engine := { live := c.engine.nextGen :: c.engine.live.erase s.gen,
                  nextGen := c.engine.nextGen + 1 } } := by
  show { c with player := (load bp c.player c.engine url).1,
                engine := (load bp c.player c.engine url).2.1 } = _
  rw [load_success_some bp c.player c.engine url s hd hv hs]

/-- `load` either leaves the engine unchanged or pushes exactly one fresh
generation on top of a subset of the old pool. -/
theorem load_engine_cases (bp : String) (p : HowlerPlayer) (e : Engine) (url : JSVal) :
    (load bp p e url).2.1 = e ∨
    ∃ X, (∀ y ∈ X, y ∈ e.live) ∧
      (load bp p e url).2.1 = { live := e.nextGen :: X, nextGen := e.nextGen + 1 } := by
  cases hd : p.isDestroyed with
  | true => exact .inl (load_rejected bp p e url (.inl hd)).2
  | false =>
    cases hv : isValidUrl bp url with
    | false => exact .inl (load_rejected bp p e url (.inr hv)).2
    | true =>
      cases hso : p.sound with
      | none =>
        exact .inr ⟨e.live, fun y hy => hy,
          by rw [load_success_none bp p e url hd hv hso]⟩
      | some s =>
        exact .inr ⟨e.live.erase s.gen, fun y hy => List.mem_of_mem_erase hy,
          by rw [load_success_some bp p e url s hd hv hso]⟩

/-- `destroy` either leaves the engine unchanged or erases the bound
generation from the pool. -/
theorem destroyPE_engine_cases (p : HowlerPlayer) (e : Engine) :
    (destroyPE (p, e)).2 = e ∨
    ∃ s : Sound, (destroyPE (p, e)).2 = { e with live := e.live.erase s.gen } := by
  cases hso : p.sound with
  | none => left; simp [destroyPE, hso]
  | some s =>
    refine .inr ⟨s, ?_⟩
    simp [destroyPE, hso]

/-- A dead generation stays dead across any single operation: it can never
re-enter the pool (fresh generations are strictly newer) and hence can
never have a callback invoked. -/
theorem stepOp_staleGen (bp : String) (c : Config) (g : Nat) (op : Op)
    (h : staleGen c g) : staleGen (stepOp bp c op) g := by
  obtain ⟨h1, h2, h3⟩ := h
  cases op with
  | opLoad url =>
    rcases load_engine_cases bp c.player c.engine url with he | ⟨X, hX, he⟩
    · refine ⟨?_, ?_, h3⟩
      · show g ∉ (load bp c.player c.engine url).2.1.live
        rw [he]; exact h1
      · show g < (load bp c.player c.engine url).2.1.nextGen
        rw [he]; exact h2
    · refine ⟨?_, ?_, h3⟩
      · show g ∉ (load bp c.player c.engine url).2.1.live
        rw [he]
        show g ∉ c.engine.nextGen :: X
        intro hmem
        rcases List.mem_cons.mp hmem with hh | hh
        · omega
        · exact h1 (hX g hh)
      · show g < (load bp c.player c.engine url).2.1.nextGen
        rw [he]
        show g < c.engine.nextGen + 1
        omega
  | opDeliver g2 ev =>
    show staleGen (deliver c g2 ev) g
    unfold deliver
    by_cases hm : g2 ∈ c.engine.live
    · have hne : g2 ≠ g := fun hh => h1 (hh ▸ hm)
      rw [if_pos hm]
      have hcons : ∀ ev2 : CbKind, staleGen { c with fired := (g2, ev2) :: c.fired } g := by
        intro ev2
        refine ⟨h1, h2, fun ev3 hmem => ?_⟩
        rcases List.mem_cons.mp hmem with hh | hh
        · exact hne (congrArg Prod.fst hh).symm
        · exact h3 ev3 hh
      by_cases hev : ev = .onError
      · rw [if_pos hev]; exact hcons ev
      · rw [if_neg hev]
        by_cases hd : c.player.isDestroyed = true
        · rw [if_pos hd]; exact ⟨h1, h2, h3⟩
        · rw [if_neg hd]; exact hcons ev
    · rw [if_neg hm]; exact ⟨h1, h2, h3⟩
  | opDestroy =>
    refine ⟨?_, ?_, h3⟩
    · show g ∉ (destroyPE (c.player, c.engine)).2.live
      rcases destroyPE_engine_cases c.player c.engine with he | ⟨s, he⟩
      · rw [he]; exact h1
      · rw [he]
        exact fun hmem => h1 (List.mem_of_mem_erase hmem)
    · show g < (destroyPE (c.player, c.engine)).2.nextGen
      rcases destroyPE_engine_cases c.player c.engine with he | ⟨s, he⟩ <;> rw [he] <;> exact h2
  | opPlay => exact ⟨h1, h2, h3⟩
  | opPause => exact ⟨h1, h2, h3⟩
  | opStop => exact ⟨h1, h2, h3⟩
  | opToggle => exact ⟨h1, h2, h3⟩
  | opSeek x => exact ⟨h1, h2, h3⟩
  | opSetVolume x => exact ⟨h1, h2, h3⟩
  | opSetRate x => exact ⟨h1, h2, h3⟩

/-- A dead generation stays dead across any sequence of operations. -/
theorem runOps_staleGen (bp : String) (g : Nat) :
    ∀ (ops : List Op) (c : Config), staleGen c g → staleGen (runOps bp c ops) g := by
  intro ops
  induction ops with
  | nil => intro c h; exact h
  | cons op ops ih => intro c h; exact ih _ (stepOp_staleGen bp c g op h)

/-- C1: stale callback immunity.  From a well-formed, non-destroyed
configuration, calling `load(A)` and then `load(B)` (both URLs valid,
before any callback of A is delivered) leaves the session bound to B's
fresh generation; A's generation has been unloaded from the engine pool,
and along every subsequent operation sequence — further loads, transport
commands, destroys, and arbitrary engine callback deliveries — no callback
of A's generation is ever invoked, so A can never mutate the session
state. -/
theorem stale_callback_immunity (bp : String) (c : Config) (uA uB : JSVal)
    (hwf : WF c = true) (hnd : c.player.isDestroyed = false)
    (hA : isValidUrl bp uA = true) (hB : isValidUrl bp uB = true) :
    (stepOp bp (stepOp bp c (.opLoad uA)) (.opLoad uB)).player.sound =
      some (newSound (c.engine.nextGen + 1)) ∧
    ∀ (ops : List Op) (ev : CbKind),
      (c.engine.nextGen, ev) ∉
        (runOps bp (stepOp bp (stepOp bp c (.opLoad uA)) (.opLoad uB)) ops).fired := by
  simp only [WF, Bool.and_eq_true, List.all_eq_true, decide_eq_true_eq] at hwf
  obtain ⟨⟨hl, _⟩, hf⟩ := hwf
  have hstale : ∀ X : List Nat, (∀ y ∈ X, y ∈ c.engine.live) →
      staleGen { c with
        player := { c.player with sound := some (newSound (c.engine.nextGen + 1)) },
        engine := { live := (c.engine.nextGen + 1) :: X,
                    nextGen := c.engine.nextGen + 2 } } c.engine.nextGen := by
    intro X hX
    refine ⟨?_, ?_, ?_⟩
    · show c.engine.nextGen ∉ (c.engine.nextGen + 1) :: X
      intro hmem
      rcases List.mem_cons.mp hmem with hh | hh
      · omega
      · exact absurd (hl _ (hX _ hh)) (lt_irrefl c.engine.nextGen)
    · show c.engine.nextGen < c.engine.nextGen + 2
      omega
    · exact fun ev hmem => absurd (hf _ hmem) (lt_irrefl c.engine.nextGen)
  cases hcs : c.player.sound with
  | none =>
    have h1 := stepOp_load_none bp c uA hnd hA hcs
    have h2' := stepOp_load_some bp
      { c with player := { c.player with sound := some (newSound c.engine.nextGen) },
               engine := { live := c.engine.nextGen :: c.engine.live,
                           nextGen := c.engine.nextGen + 1 } }
      uB (newSound c.engine.nextGen) hnd hB rfl
    have h2 : stepOp bp (stepOp bp c (.opLoad uA)) (.opLoad uB) = { c with
        player := { c.player with sound := some (newSound (c.engine.nextGen + 1)) },
        engine := { live := (c.engine.nextGen + 1) :: c.engine.live,
                    nextGen := c.engine.nextGen + 2 } } := by
      rw [h1, h2']
      simp [newSound]
    refine ⟨by rw [h2], fun ops ev => ?_⟩
    have hst := runOps_staleGen bp c.engine.nextGen ops _
      (h2 ▸ hstale c.engine.live (fun y hy => hy))
    exact hst.2.2 ev
  | some s0 =>
    have h1 := stepOp_load_some bp c uA s0 hnd hA hcs
    have h2' := stepOp_load_some bp
      { c with player := { c.player with sound := some (newSound c.engine.nextGen) },
               engine := { live := c.engine.nextGen :: c.engine.live.erase s0.gen,
                           nextGen := c.engine.nextGen + 1 } }
      uB (newSound c.engine.nextGen) hnd hB rfl
    have h2 : stepOp bp (stepOp bp c (.opLoad uA)) (.opLoad uB) = { c with
        player := { c.player with sound := some (newSound (c.engine.nextGen + 1)) },
        engine := { live := (c.engine.nextGen + 1) :: c.engine.live.erase s0.gen,
                    nextGen := c.engine.nextGen + 2 } } := by
      rw [h1, h2']
      simp [newSound]
    refine ⟨by rw [h2], fun ops ev => ?_⟩
    have hst := runOps_staleGen bp c.engine.nextGen ops _
      (h2 ▸ hstale (c.engine.live.erase s0.gen) (fun y hy => List.mem_of_mem_erase hy))
    exact hst.2.2 ev

/-- C1 witness: from a fresh configuration, load two valid URLs in a row
and then deliver the engine `onload` events of both generations: the
callback of generation 0 (the superseded load) is never invoked. -/
theorem stale_callback_immunity_witness :
    WF configC1 = true ∧
    configC1.player.isDestroyed = false ∧
    isValidUrl "https:" (.jsStr "https://host/a.mp3") = true ∧
    isValidUrl "https:" (.jsStr "https://host/b.mp3") = true ∧
    (0, CbKind.onLoad) ∉
      (runOps "https:" (stepOp "https:" (stepOp "https:" configC1
          (.opLoad (.jsStr "https://host/a.mp3"))) (.opLoad (.jsStr "https://host/b.mp3")))
        [.opDeliver 0 .onLoad, .opDeliver 1 .onLoad]).fired :=
  ⟨by decide, by decide, by decide, by decide,
   (stale_callback_immunity "https:" configC1 (.jsStr "https://host/a.mp3")
      (.jsStr "https://host/b.mp3") (by decide) (by decide) (by decide) (by decide)).2
     [.opDeliver 0 .onLoad, .opDeliver 1 .onLoad] .onLoad⟩

end Fluxwave
